import Mathlib

/-!
Verification of the tracc time-tracking ledger engine (src/src/main.rs).

The embedding models the SQLite entries table as a list of rows, each row
holding the stored columns (id, datetime as whole seconds since the epoch,
kind with 0 = Begin and 1 = End).  Instants carry their whole-second
timestamp plus a nanosecond subsecond part, mirroring chrono's
DateTime representation; every instant stored in or decoded from the
database has a zero subsecond part, so durations between engine instants
are modelled at whole-second granularity, matching the whole-second
truncation used by chrono's TimeDelta num_days / num_hours / num_minutes.
Operations that mutate the store return the new row list inside Except;
an error result corresponds to the Rust functions returning Err before
reaching their INSERT statement, so the store is untouched in every
failing case.
-/

deriving instance DecidableEq for Except

/-- One stored row of the entries table: columns id, datetime (integer
seconds since the epoch) and kind (0 = Begin, 1 = End; other values are
corrupt). -/
structure Row where
  id : Int
  datetime : Int
  kind : Int
deriving DecidableEq

/-- A chrono local date-time instant: whole seconds since the epoch plus a
nanosecond subsecond part. -/
structure LocalInstant where
  sec : Int
  nano : Nat
deriving DecidableEq

/-- chrono DateTime::timestamp(): the whole-second count of the instant
(the nanosecond part is dropped). -/
def LocalInstant.timestamp (t : LocalInstant) : Int := t.sec

/-- The instant truncated to whole seconds: same second count, zero
subsecond part.  This is the spec's comparison point for the round-trip
claim, not a function of the source. -/
def truncToSeconds (t : LocalInstant) : LocalInstant := ⟨t.sec, 0⟩

/-- Source import_datetime (main.rs:255): rebuilds an instant from the
stored integer seconds, with zero subseconds. -/
def import_datetime (x : Int) : LocalInstant := ⟨x, 0⟩

/-- Difference of two instants in whole seconds (chrono TimeDelta at
second granularity; every instant decoded from the store has a zero
subsecond part). -/
def deltaSeconds (a b : LocalInstant) : Int := a.sec - b.sec

/-- chrono TimeDelta::num_days of a whole-second duration: division by
86400 truncating toward zero. -/
def num_days (secs : Int) : Int := Int.tdiv secs 86400

/-- chrono TimeDelta::num_hours: division by 3600 truncating toward
zero. -/
def num_hours (secs : Int) : Int := Int.tdiv secs 3600

/-- chrono TimeDelta::num_minutes: division by 60 truncating toward
zero. -/
def num_minutes (secs : Int) : Int := Int.tdiv secs 60

/-- Source enum Entry (main.rs:250): a decoded ledger event. -/
inductive Entry where
  | Begin (dt : LocalInstant)
  | End (dt : LocalInstant)
deriving DecidableEq

/-- The distinct error cases of the source, one constructor per Err site
(the Rust code returns formatted strings; the payloads here are the data
interpolated into those strings). -/
inductive Err where
  | ambiguousLedgerState
  | alreadyRunning (startedAt : LocalInstant)
  | alreadyIdle (endedAt : LocalInstant)
  | noPeriodToEnd
  | corruptedDanglingEnd (danglingEndAt : LocalInstant)
  | corruptedDayOverflow
  | unknownEntryKind (k : Int) (id : Int)
deriving DecidableEq

/-- Source Entry::from_db_row (main.rs:262): decode the datetime column
via import_datetime, then dispatch on the kind column; any kind outside
0 and 1 is a corruption error reporting the kind and the row id. -/
def from_db_row (row : Row) : Except Err Entry :=
  if row.kind = 0 then Except.ok (Entry.Begin (import_datetime row.datetime))
  else if row.kind = 1 then Except.ok (Entry.End (import_datetime row.datetime))
  else Except.error (Err.unknownEntryKind row.kind row.id)

/-- The rows returned by SELECT * FROM entries where datetime =
(SELECT MAX(datetime) from entries): every row whose datetime equals the
maximum datetime present, none when the table is empty. -/
def lastEntryRows (db : List Row) : List Row :=
  match (db.map Row.datetime).max? with
  | none => []
  | some m => db.filter fun r => decide (r.datetime = m)

/-- Source App::get_last_entry (main.rs:78): decode the first row with
the maximal datetime, then fail if a second such row exists (ambiguous
most-recent state); an empty table yields none. -/
def get_last_entry (db : List Row) : Except Err (Option Entry) :=
  match lastEntryRows db with
  | [] => Except.ok none
  | r :: rest =>
    match from_db_row r with
    | Except.error e => Except.error e
    | Except.ok ent =>
      match rest with
      | [] => Except.ok (some ent)
      | _ :: _ => Except.error Err.ambiguousLedgerState

/-- SQLite rowid assignment for INSERT without an explicit id: one more
than the largest id present (1 for an empty table). -/
def nextId (db : List Row) : Int := (db.map Row.id).foldl max 0 + 1

/-- INSERT INTO entries (datetime, kind) VALUES (t, k): append one row
with a fresh id. -/
def insertRow (db : List Row) (t k : Int) : List Row :=
  db ++ [⟨nextId db, t, k⟩]

/-- Source App::add_begin (main.rs:104): read the most recent entry; a
pending Begin is an error (no write), otherwise insert one Begin row
carrying now truncated to whole seconds. -/
def add_begin (now : LocalInstant) (db : List Row) : Except Err (List Row) :=
  match get_last_entry db with
  | Except.error e => Except.error e
  | Except.ok (some (Entry.Begin dt)) => Except.error (Err.alreadyRunning dt)
  | Except.ok (some (Entry.End _)) => Except.ok (insertRow db now.timestamp 0)
  | Except.ok none => Except.ok (insertRow db now.timestamp 0)

/-- Source App::add_end (main.rs:135): read the most recent entry; a
pending End or an empty ledger is an error (no write), otherwise insert
one End row carrying now truncated to whole seconds. -/
def add_end (now : LocalInstant) (db : List Row) : Except Err (List Row) :=
  match get_last_entry db with
  | Except.error e => Except.error e
  | Except.ok (some (Entry.Begin _)) => Except.ok (insertRow db now.timestamp 1)
  | Except.ok (some (Entry.End dt)) => Except.error (Err.alreadyIdle dt)
  | Except.ok none => Except.error Err.noPeriodToEnd

/-- Ascending datetime order on rows (the ORDER BY datetime of the
queries in show and today). -/
def byDatetime (a b : Row) : Prop := a.datetime ≤ b.datetime

instance : DecidableRel byDatetime :=
  fun a b => inferInstanceAs (Decidable (a.datetime ≤ b.datetime))

instance : IsTotal Row byDatetime :=
  ⟨fun a b => Int.le_total a.datetime b.datetime⟩

instance : IsTrans Row byDatetime :=
  ⟨fun _ _ _ hab hbc => le_trans hab hbc⟩

/-- SELECT * FROM entries where datetime >= lo and datetime < hi order by
datetime (main.rs:199): the rows of the window, ascending by datetime. -/
def rangeRows (today_start today_end : Int) (db : List Row) : List Row :=
  List.insertionSort byDatetime
    (db.filter fun r => decide (today_start ≤ r.datetime ∧ r.datetime < today_end))

/-- The while-let row loop of App::show (main.rs:170): each fetched row is
decoded (a decode failure aborts with its error), a fetch error ends the
loop as if the rows were exhausted, and the decoded entries are collected
in order. -/
def showLoop : List (Except String Row) → Except Err (List Entry)
  | [] => Except.ok []
  | Except.error _ :: _ => Except.ok []
  | Except.ok row :: rest =>
    match from_db_row row with
    | Except.error e => Except.error e
    | Except.ok ent =>
      match showLoop rest with
      | Except.error e => Except.error e
      | Except.ok ents => Except.ok (ent :: ents)

/-- The while-let fold of App::today (main.rs:210): state is the
accumulated whole-second duration and the optional open period begin.
A Begin row overwrites the open begin; an End row with an open begin adds
the elapsed span and clears it; an End row without one is the dangling-End
corruption error; a row fetch error ends the loop as if the rows were
exhausted. -/
def todayLoop :
    List (Except String Row) → Int → Option LocalInstant →
      Except Err (Int × Option LocalInstant)
  | [], time, slot => Except.ok (time, slot)
  | Except.error _ :: _, time, slot => Except.ok (time, slot)
  | Except.ok row :: rest, time, slot =>
    match from_db_row row with
    | Except.error e => Except.error e
    | Except.ok (Entry.Begin dt) => todayLoop rest time (some dt)
    | Except.ok (Entry.End dt) =>
      match slot with
      | some b => todayLoop rest (time + deltaSeconds dt b) none
      | none => Except.error (Err.corruptedDanglingEnd dt)

/-- The duration reached after the fold of App::today: the folded time,
plus now minus the open begin when one is still pending
(main.rs:230). -/
def accumulated (now : LocalInstant) (time : Int) (slot : Option LocalInstant) : Int :=
  match slot with
  | some b => time + deltaSeconds now b
  | none => time

/-- The tail of App::today after the fold (main.rs:230): close a pending
open period against now, then fail when the total spans a nonzero number
of whole days (the num_days sanity check), otherwise return the total. -/
def todayFinish (now : LocalInstant) (time : Int) (slot : Option LocalInstant) :
    Except Err Int :=
  if num_days (accumulated now time slot) = 0 then
    Except.ok (accumulated now time slot)
  else Except.error Err.corruptedDayOverflow

/-- Source App::today (main.rs:186), with the window bounds (local
midnight of now and one day later in the source) passed explicitly:
query the window ascending, fold it, and finish. -/
def today (now : LocalInstant) (today_start today_end : Int) (db : List Row) :
    Except Err Int :=
  match todayLoop ((rangeRows today_start today_end db).map Except.ok) 0 none with
  | Except.error e => Except.error e
  | Except.ok (time, slot) => todayFinish now time slot

/-- Rust format specifier with width 2 and the default space fill and
right alignment, as in the hours field of main.rs:236. -/
def fmtWidth2 (n : Int) : String :=
  let s := toString n
  if s.length < 2 then " " ++ s else s

/-- Rust format specifier 02: zero-padded to width 2, as in the minutes
field of main.rs:236. -/
def fmtZero2 (n : Int) : String :=
  let s := toString n
  if s.length < 2 then "0" ++ s else s

/-- The line printed by App::today on success (main.rs:236). -/
def renderTotal (time : Int) : String :=
  "Total time spent today: " ++ fmtWidth2 (num_hours time) ++ ":" ++
    fmtZero2 (num_minutes time - num_hours time * 60)

/-- App::today up to its printed output: the summarized duration rendered
by the final println. -/
def todayMessage (now : LocalInstant) (today_start today_end : Int) (db : List Row) :
    Except Err String :=
  Except.map renderTotal (today now today_start today_end db)

/-- Truncating (toward-zero) division vanishes on arguments smaller in
magnitude than the divisor. -/
theorem tdiv_small {a n : Int} (h1 : -n < a) (h2 : a < n) : Int.tdiv a n = 0 := by
  match a, n with
  | Int.ofNat m, Int.ofNat k =>
    have hm : m < k := by
      simp only [Int.ofNat_eq_natCast] at h1 h2
      omega
    show Int.ofNat (m / k) = 0
    rw [Nat.div_eq_of_lt hm]
    rfl
  | Int.negSucc m, Int.ofNat k =>
    have hm : m + 1 < k := by
      simp only [Int.ofNat_eq_natCast, Int.negSucc_eq] at h1 h2
      omega
    show -Int.ofNat ((m + 1) / k) = 0
    rw [Nat.div_eq_of_lt hm]
    rfl
  | Int.ofNat m, Int.negSucc k =>
    simp only [Int.ofNat_eq_natCast, Int.negSucc_eq] at h1 h2
    omega
  | Int.negSucc m, Int.negSucc k =>
    simp only [Int.negSucc_eq] at h1 h2
    omega

/-- For nonnegative totals, whole hours computed directly from seconds
agree with whole minutes divided by sixty. -/
theorem num_hours_as_minutes {acc : Int} (h : 0 ≤ acc) :
    Int.tdiv (Int.tdiv acc 60) 60 = num_hours acc := by
  obtain ⟨n, rfl⟩ := Int.eq_ofNat_of_zero_le h
  show Int.ofNat (n / 60 / 60) = Int.ofNat (n / 3600)
  rw [Nat.div_div_eq_div_mul]

/-- For nonnegative totals, the printed minutes field equals the whole
minutes modulo sixty. -/
theorem minutes_field_as_mod {acc : Int} (h : 0 ≤ acc) :
    num_minutes acc - num_hours acc * 60 = Int.emod (Int.tdiv acc 60) 60 := by
  obtain ⟨n, rfl⟩ := Int.eq_ofNat_of_zero_le h
  show Int.ofNat (n / 60) - Int.ofNat (n / 3600) * 60 = Int.emod (Int.ofNat (n / 60)) 60
  have h1 : n / 3600 = n / 60 / 60 := by rw [Nat.div_div_eq_div_mul]
  rw [h1]
  show Int.ofNat (n / 60) - Int.ofNat (n / 60 / 60) * 60 = Int.ofNat (n / 60 % 60)
  simp only [Int.ofNat_eq_natCast]
  omega

/-- Row decoding has exactly three outcomes: a Begin, an End, or the
unknown-kind error. -/
theorem from_db_row_cases (row : Row) :
    from_db_row row = Except.ok (Entry.Begin (import_datetime row.datetime))
  ∨ from_db_row row = Except.ok (Entry.End (import_datetime row.datetime))
  ∨ from_db_row row = Except.error (Err.unknownEntryKind row.kind row.id) := by
  unfold from_db_row
  by_cases h0 : row.kind = 0
  · exact Or.inl (by rw [if_pos h0])
  · by_cases h1 : row.kind = 1
    · exact Or.inr (Or.inl (by rw [if_neg h0, if_pos h1]))
    · exact Or.inr (Or.inr (by rw [if_neg h0, if_neg h1]))

/-- The fold of App::today can fail only while decoding or on a dangling
End; the day-overflow error arises strictly after the loop. -/
theorem todayLoop_no_overflow (stream : List (Except String Row)) :
    ∀ (time : Int) (slot : Option LocalInstant),
      todayLoop stream time slot ≠ Except.error Err.corruptedDayOverflow := by
  induction stream with
  | nil => intro time slot; simp [todayLoop]
  | cons x rest ih =>
    intro time slot
    rcases x with e | row
    · simp [todayLoop]
    · rcases from_db_row_cases row with hfr | hfr | hfr
      · simp only [todayLoop, hfr]
        exact ih time (some (import_datetime row.datetime))
      · simp only [todayLoop, hfr]
        rcases slot with _ | b
        · simp
        · exact ih (time + deltaSeconds (import_datetime row.datetime) b) none
      · simp [todayLoop, hfr]

/-- C2: inside the fold of SummarizeRange (App::today), an End entry with
an open begin adds the span from the open begin to the End and clears the
open begin, while an End entry with no open begin fails with the
dangling-End corruption error carrying that End's instant; the final
conjunct shows a whole run on a window holding only an End fails rather
than silently ignoring it. -/
theorem c2_dangling_end (i dt : Int) (rest : List (Except String Row))
    (time : Int) (b : LocalInstant) :
    todayLoop (Except.ok ⟨i, dt, 1⟩ :: rest) time (some b) =
      todayLoop rest (time + deltaSeconds (import_datetime dt) b) none
  ∧ todayLoop (Except.ok ⟨i, dt, 1⟩ :: rest) time none =
      Except.error (Err.corruptedDanglingEnd (import_datetime dt))
  ∧ today ⟨86000, 0⟩ 0 86400 [⟨1, 36000, 1⟩] =
      Except.error (Err.corruptedDanglingEnd (import_datetime 36000)) :=
  ⟨rfl, rfl, by decide⟩

/-- C3 counterexample: on the spec's own aggregation example
(Begin at 09:00, End at 12:00, Begin at 13:00, now 13:30, window the
whole day) the program reports 12600 seconds, not the 4 hours 30 minutes
(16200 seconds) the claim states. -/
theorem c3_counterexample :
    today ⟨48600, 0⟩ 0 86400 [⟨1, 32400, 0⟩, ⟨2, 43200, 1⟩, ⟨3, 46800, 0⟩] ≠
      Except.ok 16200 := by decide

/-- C3 amended: after the fold, a still-open begin contributes now minus
the open begin to the total; on the concrete example the total is
3 hours 30 minutes (12600 seconds), not 4 hours 30 minutes. -/
theorem c3_open_begin :
    (∀ (now : LocalInstant) (time : Int) (b : LocalInstant),
        num_days (time + deltaSeconds now b) = 0 →
        todayFinish now time (some b) = Except.ok (time + deltaSeconds now b))
  ∧ today ⟨48600, 0⟩ 0 86400 [⟨1, 32400, 0⟩, ⟨2, 43200, 1⟩, ⟨3, 46800, 0⟩] =
      Except.ok 12600 := by
  constructor
  · intro now time b h
    unfold todayFinish accumulated
    rw [if_pos h]
  · decide

/-- Witness for C3: the open-begin rule applied at the example's final
state, now 13:30, pending begin 13:00, 10800 seconds already folded. -/
theorem c3_witness :
    num_days (10800 + deltaSeconds ⟨48600, 0⟩ ⟨46800, 0⟩) = 0
  ∧ todayFinish ⟨48600, 0⟩ 10800 (some ⟨46800, 0⟩) =
      Except.ok (10800 + deltaSeconds ⟨48600, 0⟩ ⟨46800, 0⟩) :=
  ⟨by decide, c3_open_begin.1 ⟨48600, 0⟩ 10800 ⟨46800, 0⟩ (by decide)⟩

/-- C6: a Begin entry inside the window overwrites whatever open begin is
held, raising no error for any held state; concretely, on
Begin at 100, Begin at 200, End at 300 the program returns 100 seconds,
silently dropping the period opened at 100. -/
theorem c6_overwrite (i dt : Int) (rest : List (Except String Row))
    (time : Int) (slot : Option LocalInstant) :
    todayLoop (Except.ok ⟨i, dt, 0⟩ :: rest) time slot =
      todayLoop rest time (some (import_datetime dt))
  ∧ today ⟨400, 0⟩ 0 86400 [⟨1, 100, 0⟩, ⟨2, 200, 0⟩, ⟨3, 300, 1⟩] =
      Except.ok 100 :=
  ⟨rfl, by decide⟩

/-- C8 counterexample: on an empty ledger the today line is rendered with
the hours field space-padded to width 2, so the output is not the
claimed one with an unpadded zero. -/
theorem c8_counterexample :
    todayMessage ⟨1000, 0⟩ 0 86400 [] ≠
      Except.ok "Total time spent today: 0:00" := by decide

/-- C8 amended: on an empty ledger SummarizeToday succeeds with a zero
duration for every now and window, and the line printed renders that
zero as a width-2 space-padded hours field and zero-padded minutes. -/
theorem c8_empty (now : LocalInstant) (today_start today_end : Int) :
    today now today_start today_end [] = Except.ok 0
  ∧ todayMessage now today_start today_end [] =
      Except.ok "Total time spent today:  0:00" :=
  ⟨rfl, rfl⟩

/-- C9: an entry inserted by StartPeriod or EndPeriod stores the
whole-second timestamp of now, and decoding the stored row yields the
same kind with the instant equal to now truncated to whole seconds. -/
theorem c9_roundtrip (T : LocalInstant) (db : List Row) :
    import_datetime (LocalInstant.timestamp T) = truncToSeconds T
  ∧ insertRow db T.timestamp 0 = db ++ [⟨nextId db, T.timestamp, 0⟩]
  ∧ from_db_row ⟨nextId db, T.timestamp, 0⟩ =
      Except.ok (Entry.Begin (truncToSeconds T))
  ∧ from_db_row ⟨nextId db, T.timestamp, 1⟩ =
      Except.ok (Entry.End (truncToSeconds T)) :=
  ⟨rfl, rfl, rfl, rfl⟩

/-- C10: in the row loops of both show and today, a row fetch error in
the middle of the stream ends the loop exactly as if the stream had
ended there: the suffix after the error is ignored and the loop result
equals the result on the error-free part alone, so the operation
completes with a partial listing or partial total instead of propagating
the store error; the last conjunct shows a concrete partial listing. -/
theorem c10_partial_iteration (rows : List Row) (msg : String)
    (rest : List (Except String Row)) (time : Int) (slot : Option LocalInstant) :
    showLoop (rows.map Except.ok ++ Except.error msg :: rest) =
      showLoop (rows.map Except.ok)
  ∧ todayLoop (rows.map Except.ok ++ Except.error msg :: rest) time slot =
      todayLoop (rows.map Except.ok) time slot
  ∧ showLoop [Except.ok ⟨1, 5, 0⟩, Except.error msg, Except.ok ⟨2, 6, 1⟩] =
      Except.ok [Entry.Begin ⟨5, 0⟩] := by
  refine ⟨?_, ?_, ?_⟩
  · induction rows with
    | nil => rfl
    | cons r rs ih =>
      simp only [List.map_cons, List.cons_append, showLoop, List.append_eq]
      rw [ih]
  · induction rows generalizing time slot with
    | nil => rfl
    | cons r rs ih =>
      simp only [List.map_cons, List.cons_append, todayLoop, List.append_eq]
      rcases from_db_row_cases r with hfr | hfr | hfr
      · simp only [hfr]
        exact ih time (some (import_datetime r.datetime))
      · simp only [hfr]
        rcases slot with _ | b
        · rfl
        · exact ih (time + deltaSeconds (import_datetime r.datetime) b) none
      · simp only [hfr]
  · rfl

/-- C1: when the most-recent query answers cleanly, StartPeriod fails
exactly when that answer is a Begin and EndPeriod fails exactly when it
is an End or the ledger is empty; every success appends exactly one row
of the corresponding kind carrying the whole-second timestamp of now,
and every failure returns before the INSERT, leaving the store
unchanged. -/
theorem c1_alternation (now : LocalInstant) (db : List Row) (le : Option Entry)
    (h : get_last_entry db = Except.ok le) :
    ((∃ e, add_begin now db = Except.error e) ↔ ∃ t, le = some (Entry.Begin t))
  ∧ ((∃ e, add_end now db = Except.error e) ↔
      (le = none ∨ ∃ t, le = some (Entry.End t)))
  ∧ ((¬ ∃ t, le = some (Entry.Begin t)) →
      add_begin now db = Except.ok (insertRow db now.timestamp 0))
  ∧ ((∃ t, le = some (Entry.Begin t)) →
      add_end now db = Except.ok (insertRow db now.timestamp 1)) := by
  rcases le with _ | entry
  · have hb : add_begin now db = Except.ok (insertRow db now.timestamp 0) := by
      unfold add_begin
      rw [h]
    have he : add_end now db = Except.error Err.noPeriodToEnd := by
      unfold add_end
      rw [h]
    refine ⟨?_, ?_, ?_, ?_⟩ <;> simp [hb, he]
  · rcases entry with dt | dt
    · have hb : add_begin now db = Except.error (Err.alreadyRunning dt) := by
        unfold add_begin
        rw [h]
      have he : add_end now db = Except.ok (insertRow db now.timestamp 1) := by
        unfold add_end
        rw [h]
      refine ⟨?_, ?_, ?_, ?_⟩ <;> simp [hb, he]
    · have hb : add_begin now db = Except.ok (insertRow db now.timestamp 0) := by
        unfold add_begin
        rw [h]
      have he : add_end now db = Except.error (Err.alreadyIdle dt) := by
        unfold add_end
        rw [h]
      refine ⟨?_, ?_, ?_, ?_⟩ <;> simp [hb, he]

/-- Witness for C1: a ledger whose most recent entry is a Begin, on which
EndPeriod succeeds and appends one End row. -/
theorem c1_witness :
    get_last_entry [⟨1, 10, 0⟩] = Except.ok (some (Entry.Begin ⟨10, 0⟩))
  ∧ add_end ⟨20, 0⟩ [⟨1, 10, 0⟩] =
      Except.ok (insertRow [⟨1, 10, 0⟩] (LocalInstant.timestamp ⟨20, 0⟩) 1) :=
  ⟨by decide,
    (c1_alternation ⟨20, 0⟩ [⟨1, 10, 0⟩] (some (Entry.Begin ⟨10, 0⟩))
      (by decide)).2.2.2 ⟨⟨10, 0⟩, rfl⟩⟩

/-- Every row the most-recent query returns is a row of the table. -/
theorem lastEntryRows_subset (db : List Row) :
    ∀ r ∈ lastEntryRows db, r ∈ db := by
  intro r hr
  unfold lastEntryRows at hr
  rcases hmax : (db.map Row.datetime).max? with _ | m <;> rw [hmax] at hr
  · simp at hr
  · exact (List.mem_filter.mp hr).1

/-- C5: whenever more than one row carries the maximal datetime (and the
tied rows decode to real entries), the most-recent query fails with the
ambiguity error rather than picking one, and therefore both StartPeriod
and EndPeriod fail with that error before reaching their INSERT, so
neither performs a write. -/
theorem c5_ambiguous (now : LocalInstant) (db : List Row)
    (hk : ∀ r ∈ db, r.kind = 0 ∨ r.kind = 1)
    (hd : 2 ≤ (lastEntryRows db).length) :
    get_last_entry db = Except.error Err.ambiguousLedgerState
  ∧ add_begin now db = Except.error Err.ambiguousLedgerState
  ∧ add_end now db = Except.error Err.ambiguousLedgerState := by
  have hgle : get_last_entry db = Except.error Err.ambiguousLedgerState := by
    rcases l : lastEntryRows db with _ | ⟨r, _ | ⟨r2, rest⟩⟩
    · rw [l] at hd
      simp at hd
    · rw [l] at hd
      simp at hd
    · have hrdb : r ∈ db := lastEntryRows_subset db r (by rw [l]; exact List.mem_cons_self r _)
      have hfr : ∃ ent, from_db_row r = Except.ok ent := by
        rcases hk r hrdb with h0 | h1
        · exact ⟨Entry.Begin (import_datetime r.datetime), by unfold from_db_row; rw [if_pos h0]⟩
        · exact ⟨Entry.End (import_datetime r.datetime), by unfold from_db_row; rw [if_neg (by rw [h1]; decide), if_pos h1]⟩
      obtain ⟨ent, hent⟩ := hfr
      unfold get_last_entry
      simp only [l, hent]
  refine ⟨hgle, ?_, ?_⟩
  · unfold add_begin
    rw [hgle]
  · unfold add_end
    rw [hgle]

/-- Witness for C5: two well-kinded rows tied at the maximal datetime. -/
theorem c5_witness :
    (∀ r ∈ [(⟨1, 5, 0⟩ : Row), ⟨2, 5, 1⟩], r.kind = 0 ∨ r.kind = 1)
  ∧ 2 ≤ (lastEntryRows [⟨1, 5, 0⟩, ⟨2, 5, 1⟩]).length
  ∧ get_last_entry [⟨1, 5, 0⟩, ⟨2, 5, 1⟩] = Except.error Err.ambiguousLedgerState :=
  ⟨by decide, by decide,
    (c5_ambiguous ⟨9, 0⟩ [⟨1, 5, 0⟩, ⟨2, 5, 1⟩] (by decide) (by decide)).1⟩

/-- C7 counterexample: a day totalling 4 hours 30 minutes is printed with
the hours field space-padded to width 2 (two spaces after the colon of
the label), not as the claimed unpadded form. -/
theorem c7_counterexample :
    todayMessage ⟨50000, 0⟩ 0 86400 [⟨1, 0, 0⟩, ⟨2, 16200, 1⟩] ≠
      Except.ok "Total time spent today: 4:30"
  ∧ todayMessage ⟨50000, 0⟩ 0 86400 [⟨1, 0, 0⟩, ⟨2, 16200, 1⟩] =
      Except.ok "Total time spent today:  4:30" :=
  ⟨by decide, by decide⟩

/-- C7 amended: on success with a nonnegative total, the today line is
the label followed by the truncated hour count (total minutes divided by
sixty) space-padded to width 2, a colon, and the minutes remainder
(total minutes modulo sixty) zero-padded to two digits. -/
theorem c7_render (now : LocalInstant) (today_start today_end : Int)
    (db : List Row) (acc : Int)
    (h : today now today_start today_end db = Except.ok acc) (hnn : 0 ≤ acc) :
    todayMessage now today_start today_end db =
      Except.ok ("Total time spent today: " ++
        fmtWidth2 (Int.tdiv (Int.tdiv acc 60) 60) ++ ":" ++
        fmtZero2 (Int.emod (Int.tdiv acc 60) 60)) := by
  unfold todayMessage
  rw [h]
  show Except.ok (renderTotal acc) = _
  unfold renderTotal
  rw [num_hours_as_minutes hnn, minutes_field_as_mod hnn]

/-- Witness for C7: the amended rendering rule applied to the concrete
4 hours 30 minutes ledger. -/
theorem c7_witness :
    today ⟨50000, 0⟩ 0 86400 [⟨1, 0, 0⟩, ⟨2, 16200, 1⟩] = Except.ok 16200
  ∧ (0 : Int) ≤ 16200
  ∧ todayMessage ⟨50000, 0⟩ 0 86400 [⟨1, 0, 0⟩, ⟨2, 16200, 1⟩] =
      Except.ok ("Total time spent today: " ++
        fmtWidth2 (Int.tdiv (Int.tdiv 16200 60) 60) ++ ":" ++
        fmtZero2 (Int.emod (Int.tdiv 16200 60) 60)) :=
  ⟨by decide, by decide,
    c7_render ⟨50000, 0⟩ 0 86400 [⟨1, 0, 0⟩, ⟨2, 16200, 1⟩] 16200 (by decide) (by decide)⟩

/-- Invariant of the fold of App::today over a sorted window: starting
from a nonnegative accumulator whose value is covered by the span
between the window start and either the open begin or every remaining
row, the fold preserves that cover, so the final accumulator is
nonnegative, bounded by the open begin's offset when one is pending, and
strictly below the window span otherwise. -/
theorem todayLoop_bound (ws we : Int) :
    ∀ (rows : List Row) (time : Int) (slot : Option LocalInstant),
      List.Sorted byDatetime rows →
      (∀ r ∈ rows, ws ≤ r.datetime ∧ r.datetime < we) →
      0 ≤ time →
      (∀ b, slot = some b →
        ws ≤ b.sec ∧ b.sec < we ∧ time ≤ b.sec - ws ∧ ∀ r ∈ rows, b.sec ≤ r.datetime) →
      (slot = none →
        (∀ r ∈ rows, time ≤ r.datetime - ws) ∧ (time = 0 ∨ time < we - ws)) →
      ∀ time' slot',
        todayLoop (rows.map Except.ok) time slot = Except.ok (time', slot') →
          0 ≤ time'
        ∧ (∀ b', slot' = some b' → ws ≤ b'.sec ∧ b'.sec < we ∧ time' ≤ b'.sec - ws)
        ∧ (slot' = none → time' = 0 ∨ time' < we - ws) := by
  intro rows
  induction rows with
  | nil =>
    intro time slot _ _ ht hs hn time' slot' hrun
    have hpair : (time, slot) = (time', slot') := Except.ok.inj hrun
    obtain ⟨h1, h2⟩ := Prod.mk.injEq .. ▸ hpair
    subst h1
    subst h2
    exact ⟨ht, fun b' hb' => ⟨(hs b' hb').1, (hs b' hb').2.1, (hs b' hb').2.2.1⟩,
      fun hn' => (hn hn').2⟩
  | cons r rs ih =>
    intro time slot hsort hwin ht hs hn time' slot' hrun
    have hrwin := hwin r (List.mem_cons_self r rs)
    have hsort' := List.sorted_cons.mp hsort
    simp only [List.map_cons] at hrun
    rcases from_db_row_cases r with hfr | hfr | hfr
    · -- Begin row: the open begin is overwritten with this row's instant.
      simp only [todayLoop, hfr] at hrun
      refine ih time (some (import_datetime r.datetime)) hsort'.2
        (fun r' hr' => hwin r' (List.mem_cons_of_mem r hr')) ht ?_ ?_ time' slot' hrun
      · intro b hb
        have hb' : b = import_datetime r.datetime := (Option.some.inj hb).symm
        subst hb'
        refine ⟨hrwin.1, hrwin.2, ?_, ?_⟩
        · rcases hslot : slot with _ | b0
          · rw [hslot] at hn
            exact (hn rfl).1 r (List.mem_cons_self r rs)
          · rw [hslot] at hs
            obtain ⟨_, _, h3, h4⟩ := hs b0 rfl
            have := h4 r (List.mem_cons_self r rs)
            show time ≤ r.datetime - ws
            omega
        · intro r' hr'
          exact hsort'.1 r' hr'
      · intro hcon
        exact absurd hcon (by simp)
    · -- End row: needs an open begin, which it closes into the accumulator.
      simp only [todayLoop, hfr] at hrun
      rcases slot with _ | b0
      · exact absurd hrun (by simp)
      · obtain ⟨hb1, hb2, hb3, hb4⟩ := hs b0 rfl
        have hbr : b0.sec ≤ r.datetime := hb4 r (List.mem_cons_self r rs)
        have hdelta : deltaSeconds (import_datetime r.datetime) b0 = r.datetime - b0.sec := rfl
        refine ih (time + deltaSeconds (import_datetime r.datetime) b0) none hsort'.2
          (fun r' hr' => hwin r' (List.mem_cons_of_mem r hr')) ?_ ?_ ?_ time' slot' hrun
        · rw [hdelta]
          omega
        · intro b hb
          exact absurd hb (by simp)
        · intro _
          constructor
          · intro r' hr'
            have hle := hsort'.1 r' hr'
            have : r.datetime ≤ r'.datetime := hle
            rw [hdelta]
            omega
          · rw [hdelta]
            right
            omega
    · -- Undecodable row: the loop fails, contradicting the ok hypothesis.
      simp only [todayLoop, hfr] at hrun
      exact absurd hrun (by simp)

/-- C4: for a single-day window that contains now (as in SummarizeToday,
where the window runs from the local midnight of now for one day), the
accumulated duration always lies strictly between minus one day and one
day, so it never exceeds the span of one calendar day and the
day-overflow corruption check never fails: whenever the fold completes,
today returns the accumulated duration. -/
theorem c4_day_span (ws : Int) (now : LocalInstant) (db : List Row)
    (h1 : ws ≤ now.sec) (h2 : now.sec < ws + 86400) :
    today now ws (ws + 86400) db ≠ Except.error Err.corruptedDayOverflow
  ∧ ∀ time slot,
      todayLoop ((rangeRows ws (ws + 86400) db).map Except.ok) 0 none =
        Except.ok (time, slot) →
          accumulated now time slot < 86400
        ∧ -86400 < accumulated now time slot
        ∧ today now ws (ws + 86400) db = Except.ok (accumulated now time slot) := by
  have hsorted : List.Sorted byDatetime (rangeRows ws (ws + 86400) db) :=
    List.sorted_insertionSort byDatetime _
  have hwin : ∀ r ∈ rangeRows ws (ws + 86400) db,
      ws ≤ r.datetime ∧ r.datetime < ws + 86400 := by
    intro r hr
    have hr2 : r ∈ db.filter fun r => decide (ws ≤ r.datetime ∧ r.datetime < ws + 86400) :=
      ((List.perm_insertionSort byDatetime _).mem_iff).mp hr
    exact of_decide_eq_true (List.mem_filter.mp hr2).2
  have key : ∀ time slot,
      todayLoop ((rangeRows ws (ws + 86400) db).map Except.ok) 0 none =
        Except.ok (time, slot) →
          accumulated now time slot < 86400
        ∧ -86400 < accumulated now time slot
        ∧ today now ws (ws + 86400) db = Except.ok (accumulated now time slot) := by
    intro time slot hrun
    obtain ⟨ht', hsome, hnone⟩ :=
      todayLoop_bound ws (ws + 86400) (rangeRows ws (ws + 86400) db) 0 none hsorted hwin
        le_rfl (fun b hb => absurd hb (by simp))
        (fun _ => ⟨fun r hr => by have := (hwin r hr).1; omega, Or.inl rfl⟩)
        time slot hrun
    have hbounds : accumulated now time slot < 86400 ∧ -86400 < accumulated now time slot := by
      rcases hslot : slot with _ | b
      · rw [hslot] at hnone
        have := hnone rfl
        simp only [accumulated]
        omega
      · rw [hslot] at hsome
        obtain ⟨hbb1, hbb2, hbb3⟩ := hsome b rfl
        simp only [accumulated, deltaSeconds]
        omega
    refine ⟨hbounds.1, hbounds.2, ?_⟩
    have hz : num_days (accumulated now time slot) = 0 := by
      unfold num_days
      exact tdiv_small (by omega) (by omega)
    unfold today
    rw [hrun]
    show todayFinish now time slot = _
    unfold todayFinish
    rw [if_pos hz]
  refine ⟨?_, key⟩
  cases hrun : todayLoop ((rangeRows ws (ws + 86400) db).map Except.ok) 0 none with
  | error e =>
    have hne : e ≠ Err.corruptedDayOverflow := fun hcontra =>
      todayLoop_no_overflow _ 0 none (hcontra ▸ hrun)
    unfold today
    rw [hrun]
    simp [hne]
  | ok p =>
    obtain ⟨time, slot⟩ := p
    have := (key time slot hrun).2.2
    rw [this]
    simp

/-- Witness for C4: a window starting at 0 containing now at second 100
with a single open Begin at second 50. -/
theorem c4_witness :
    ((0 : Int) ≤ 100)
  ∧ ((100 : Int) < 0 + 86400)
  ∧ today ⟨100, 0⟩ 0 (0 + 86400) [⟨1, 50, 0⟩] ≠ Except.error Err.corruptedDayOverflow :=
  ⟨by decide, by decide,
    (c4_day_span 0 ⟨100, 0⟩ [⟨1, 50, 0⟩] (by decide) (by decide)).1⟩
